import Mathlib

/-!
Verification of the runtime core of the NanoLog/FastLogger system
(`src/runtime/FastLogger.cc`) against its natural-language specification.

The staging ring buffer is embedded with byte offsets into `storage` as
natural numbers: a pointer `p` into `storage[]` is represented by the
offset `p - storage`, so `storage` itself is offset `0` and
`endOfBuffer = storage + STAGING_BUFFER_SIZE` is the offset `cap`.
Pointer differences assigned to `uint64_t` (as in `peek`'s
`*bytesAvailable`) are computed modulo `2^64`, matching the unsigned
conversion of a `ptrdiff_t`.
-/

namespace FastLogger

/-- State of `FastLogger::StagingBuffer` as far as the reservation /
peek / consume protocol is concerned.  `cap` is `STAGING_BUFFER_SIZE`;
all positions are byte offsets into `storage[]`. -/
structure StagingBuffer where
  cap : Nat
  producerPos : Nat
  consumerPos : Nat
  endOfRecordedSpace : Nat
  minFreeSpace : Nat
  shouldDeallocate : Bool
  deriving Repr, DecidableEq

/-- Difference of two byte offsets as the C code computes it when the
result lands in a `uint64_t`/`size_t`: pointer subtraction reduced
modulo `2^64`. -/
def ptrDiff64 (a b : Nat) : Nat :=
  (((a : Int) - (b : Int)) % (2 ^ 64 : Int)).toNat

/-- `FastLogger::StagingBuffer::reserveSpaceInternal`
(`src/runtime/FastLogger.cc:582-620`), fuel-indexed because the
blocking mode spins re-reading `consumerPos` (which in this sequential
embedding never changes).  Result `none` means the `while` loop ran out
of fuel (it spins); `some (r, sb')` means the function returned, with
`r = some off` the returned pointer offset and `r = none` the
`nullptr` sentinel of the non-blocking mode. -/
def reserveSpaceInternalAux :
    Nat → StagingBuffer → Nat → Bool → Option (Option Nat × StagingBuffer)
  | 0, _, _, _ => none
  | Nat.succ fuel, sb, nbytes, blocking =>
    if sb.minFreeSpace ≤ nbytes then
      -- char *cachedReadPos = consumerPos;
      let cachedReadPos := sb.consumerPos
      if cachedReadPos ≤ sb.producerPos then
        -- minFreeSpace = endOfBuffer - producerPos;
        let sb1 : StagingBuffer := { sb with minFreeSpace := sb.cap - sb.producerPos }
        if sb1.minFreeSpace > nbytes then
          some (some sb1.producerPos, sb1)
        else
          -- endOfRecordedSpace = producerPos; producerPos = storage;
          let sb2 : StagingBuffer :=
            { sb1 with endOfRecordedSpace := sb1.producerPos, producerPos := 0 }
          -- minFreeSpace = cachedReadPos - producerPos;
          let sb3 : StagingBuffer :=
            { sb2 with minFreeSpace := cachedReadPos - sb2.producerPos }
          if blocking = false ∧ sb3.minFreeSpace ≤ nbytes then
            some (none, sb3)
          else
            reserveSpaceInternalAux fuel sb3 nbytes blocking
      else
        let sb3 : StagingBuffer :=
          { sb with minFreeSpace := cachedReadPos - sb.producerPos }
        if blocking = false ∧ sb3.minFreeSpace ≤ nbytes then
          some (none, sb3)
        else
          reserveSpaceInternalAux fuel sb3 nbytes blocking
    else
      some (some sb.producerPos, sb)

/-- `FastLogger::StagingBuffer::peek`
(`src/runtime/FastLogger.cc:634-653`).  Returns
`(returned pointer offset, *bytesAvailable, state after)`; the byte
count is computed through `ptrDiff64` because `*bytesAvailable` is a
`uint64_t` assigned from a pointer difference. -/
def peek (sb : StagingBuffer) : Nat × Nat × StagingBuffer :=
  -- char *cachedRecordHead = producerPos;
  let cachedRecordHead := sb.producerPos
  if cachedRecordHead < sb.consumerPos then
    let bytesAvailable := ptrDiff64 sb.endOfRecordedSpace sb.consumerPos
    if bytesAvailable > 0 then
      (sb.consumerPos, bytesAvailable, sb)
    else
      -- consumerPos = storage;  (roll over)
      let sb1 : StagingBuffer := { sb with consumerPos := 0 }
      (sb1.consumerPos, ptrDiff64 cachedRecordHead sb1.consumerPos, sb1)
  else
    (sb.consumerPos, ptrDiff64 cachedRecordHead sb.consumerPos, sb)

lemma ptrDiff64_of_le {a b : Nat} (h : b ≤ a) (hlt : a - b < 2 ^ 64) :
    ptrDiff64 a b = a - b := by
  unfold ptrDiff64
  have h1 : (a : Int) - (b : Int) = ((a - b : Nat) : Int) := by
    omega
  rw [h1, Int.emod_eq_of_lt (by positivity) (by exact_mod_cast hlt)]
  simp

lemma ptrDiff64_self (a : Nat) : ptrDiff64 a a = 0 := by
  simp [ptrDiff64]

/-- Invariant of the reservation loop: whenever
`reserveSpaceInternal` returns an actual pointer, the final
`minFreeSpace` strictly exceeds the requested size, `consumerPos` is
untouched, the returned offset is the final `producerPos`, and the
final `minFreeSpace` is either the tail run `cap - pos` or the run
`consumerPos - pos` up to the consumer.  The entry condition holds on
the slow path (`minFreeSpace ≤ n`) and is re-established by the loop. -/
lemma reserveSpaceInternalAux_success (fuel : Nat) :
    ∀ (sb : StagingBuffer) (n : Nat) (b : Bool) (pos : Nat) (sb' : StagingBuffer),
    sb.minFreeSpace ≤ n ∨ sb.minFreeSpace = sb.consumerPos - sb.producerPos →
    reserveSpaceInternalAux fuel sb n b = some (some pos, sb') →
    n < sb'.minFreeSpace ∧ sb'.consumerPos = sb.consumerPos ∧
      sb'.producerPos = pos ∧ sb'.cap = sb.cap ∧
      (sb'.minFreeSpace = sb'.cap - pos ∨
        sb'.minFreeSpace = sb'.consumerPos - pos) := by
  induction fuel with
  | zero =>
    intro sb n b pos sb' _ h
    simp [reserveSpaceInternalAux] at h
  | succ fuel ih =>
    intro sb n b pos sb' H h
    simp only [reserveSpaceInternalAux] at h
    by_cases hg : sb.minFreeSpace ≤ n
    case neg =>
      rw [if_neg hg] at h
      obtain ⟨hpos, hsb⟩ : sb.producerPos = pos ∧ sb = sb' := by
        simpa using h
      subst hsb
      rcases H with H | H
      · omega
      · subst hpos
        exact ⟨by omega, rfl, rfl, rfl, Or.inr H⟩
    case pos =>
      rw [if_pos hg] at h
      by_cases hcp : sb.consumerPos ≤ sb.producerPos
      · rw [if_pos hcp] at h
        by_cases htail : n < sb.cap - sb.producerPos
        · rw [if_pos htail] at h
          obtain ⟨hpos, hsb⟩ :
              sb.producerPos = pos ∧
                { sb with minFreeSpace := sb.cap - sb.producerPos } = sb' := by
            simpa using h
          subst hpos
          refine ⟨by simpa [← hsb] using htail, by simp [← hsb], by simp [← hsb],
            by simp [← hsb], Or.inl ?_⟩
          simp [← hsb]
        · rw [if_neg htail] at h
          by_cases hnb : b = false ∧ sb.consumerPos - 0 ≤ n
          · rw [if_pos hnb] at h
            simp at h
          · rw [if_neg hnb] at h
            have := ih _ n b pos sb' (Or.inr (by simp)) h
            simpa using this
      · rw [if_neg hcp] at h
        by_cases hnb : b = false ∧ sb.consumerPos - sb.producerPos ≤ n
        · rw [if_pos hnb] at h
          simp at h
        · rw [if_neg hnb] at h
          have := ih _ n b pos sb' (Or.inr (by simp)) h
          simpa using this

/-- **C1.** The slow path of reserve follows the specified algorithm.
For a request of `n` bytes entered with `minFreeSpace ≤ n` (the slow
path), with `c` the loaded `consumerPos` and `p` the `producerPos`:
if `c ≤ p` and the tail run `cap - p` strictly exceeds `n`, it sets
`minFreeSpace` to that run and returns `p`; if `c ≤ p` and the tail
run does not exceed `n`, it publishes `endOfRecordedSpace = p`, wraps
`producerPos` to the start of storage, recomputes `minFreeSpace = c`,
and then fails with the `nullptr` sentinel in non-blocking mode when
`c ≤ n`, succeeds at offset `0` when `c > n`, and in blocking mode
with `c ≤ n` loops re-reading `consumerPos`; if `c > p`, it recomputes
`minFreeSpace = c - p`, fails with the sentinel in non-blocking mode
when that is `≤ n`, returns `p` when it exceeds `n`, and in blocking
mode loops re-reading `consumerPos`. -/
theorem reserveSpaceInternal_slow_path_algorithm
    (sb : StagingBuffer) (n : Nat) (h : sb.minFreeSpace ≤ n) :
    (sb.consumerPos ≤ sb.producerPos → sb.cap - sb.producerPos > n →
      ∀ b, reserveSpaceInternalAux 2 sb n b =
        some (some sb.producerPos,
          { sb with minFreeSpace := sb.cap - sb.producerPos })) ∧
    (sb.consumerPos ≤ sb.producerPos → sb.cap - sb.producerPos ≤ n →
      sb.consumerPos ≤ n →
      reserveSpaceInternalAux 2 sb n false =
        some (none,
          { sb with endOfRecordedSpace := sb.producerPos,
                    producerPos := 0,
                    minFreeSpace := sb.consumerPos })) ∧
    (sb.consumerPos ≤ sb.producerPos → sb.cap - sb.producerPos ≤ n →
      sb.consumerPos > n →
      ∀ b, reserveSpaceInternalAux 2 sb n b =
        some (some 0,
          { sb with endOfRecordedSpace := sb.producerPos,
                    producerPos := 0,
                    minFreeSpace := sb.consumerPos })) ∧
    (sb.consumerPos > sb.producerPos →
      sb.consumerPos - sb.producerPos ≤ n →
      reserveSpaceInternalAux 2 sb n false =
        some (none,
          { sb with minFreeSpace := sb.consumerPos - sb.producerPos })) ∧
    (sb.consumerPos > sb.producerPos →
      sb.consumerPos - sb.producerPos > n →
      ∀ b, reserveSpaceInternalAux 2 sb n b =
        some (some sb.producerPos,
          { sb with minFreeSpace := sb.consumerPos - sb.producerPos })) ∧
    (sb.consumerPos ≤ sb.producerPos → sb.cap - sb.producerPos ≤ n →
      sb.consumerPos ≤ n →
      ∀ fuel, reserveSpaceInternalAux (fuel + 1) sb n true =
        reserveSpaceInternalAux fuel
          { sb with endOfRecordedSpace := sb.producerPos,
                    producerPos := 0,
                    minFreeSpace := sb.consumerPos } n true) ∧
    (sb.consumerPos > sb.producerPos →
      sb.consumerPos - sb.producerPos ≤ n →
      ∀ fuel, reserveSpaceInternalAux (fuel + 1) sb n true =
        reserveSpaceInternalAux fuel
          { sb with minFreeSpace := sb.consumerPos - sb.producerPos } n true) := by
  refine ⟨?_, ?_, ?_, ?_, ?_, ?_, ?_⟩
  · intro hcp htail b
    simp [reserveSpaceInternalAux, h, hcp, htail, Nat.not_le.mpr htail]
  · intro hcp htail hc
    have htail' : ¬ sb.cap - sb.producerPos > n := Nat.not_lt.mpr htail
    simp [reserveSpaceInternalAux, h, hcp, htail', hc]
  · intro hcp htail hc
    intro b
    have htail' : ¬ sb.cap - sb.producerPos > n := Nat.not_lt.mpr htail
    have hc' : ¬ sb.consumerPos ≤ n := Nat.not_le.mpr hc
    simp [reserveSpaceInternalAux, h, hcp, htail', hc', Nat.not_le.mpr hc]
  · intro hcp hrem
    have hcp' : ¬ sb.consumerPos ≤ sb.producerPos := Nat.not_le.mpr hcp
    simp [reserveSpaceInternalAux, h, hcp', hrem]
  · intro hcp hrem b
    have hcp' : ¬ sb.consumerPos ≤ sb.producerPos := Nat.not_le.mpr hcp
    have hrem' : ¬ sb.consumerPos - sb.producerPos ≤ n := Nat.not_le.mpr hrem
    simp [reserveSpaceInternalAux, h, hcp', hrem', Nat.not_le.mpr hrem]
  · intro hcp htail hc fuel
    have htail' : ¬ sb.cap - sb.producerPos > n := Nat.not_lt.mpr htail
    simp [reserveSpaceInternalAux, h, hcp, htail', hc]
  · intro hcp hrem fuel
    have hcp' : ¬ sb.consumerPos ≤ sb.producerPos := Nat.not_le.mpr hcp
    simp [reserveSpaceInternalAux, h, hcp', hrem]

/-- Witness for C1: a concrete slow-path call.  With
`cap = 8, producerPos = 6, consumerPos = 4, minFreeSpace = 0` and a
request of `3` bytes, the tail run `8 - 6 = 2` does not exceed `3`, so
the producer wraps (`endOfRecordedSpace := 6, producerPos := 0`),
recomputes `minFreeSpace = 4` which exceeds `3`, and returns offset
`0`. -/
theorem reserveSpaceInternal_slow_path_algorithm_witness :
    reserveSpaceInternalAux 2
      ⟨8, 6, 4, 8, 0, false⟩ 3 true =
      some (some 0, ⟨8, 0, 4, 6, 4, false⟩) :=
  (reserveSpaceInternal_slow_path_algorithm ⟨8, 6, 4, 8, 0, false⟩ 3
    (by decide)).2.2.1 (by decide) (by decide) (by decide) true

/-- **C2.** Equal positions mean empty.  A slow-path reservation that
succeeds (returns a pointer) ends with `minFreeSpace` strictly greater
than the requested size, leaves `consumerPos` untouched, and the free
run it found (`cap - pos` at the tail, or `consumerPos - pos` up to the
consumer) strictly exceeds `n`, so `pos + n < cap` or
`pos + n < consumerPos`: advancing the producer by the reserved bytes
can never make the positions equal, and the ring holds at most
`STAGING_BUFFER_SIZE - 1` bytes of user data.  Moreover `peek` reports
`0` readable bytes whenever `producerPos = consumerPos`. -/
theorem reservation_strict_and_equal_means_empty
    (fuel n : Nat) (b : Bool) (pos : Nat) (sb sb' : StagingBuffer)
    (hm : sb.minFreeSpace ≤ n)
    (h : reserveSpaceInternalAux fuel sb n b = some (some pos, sb')) :
    n < sb'.minFreeSpace ∧ sb'.consumerPos = sb.consumerPos ∧
      (pos + n < sb'.cap ∨ pos + n < sb'.consumerPos) ∧
      (∀ t : StagingBuffer, t.producerPos = t.consumerPos →
        (peek t).2.1 = 0) := by
  obtain ⟨h1, h2, h3, h4, h5⟩ :=
    reserveSpaceInternalAux_success fuel sb n b pos sb' (Or.inl hm) h
  refine ⟨h1, h2, by omega, ?_⟩
  intro t ht
  have hlt : ¬ t.producerPos < t.consumerPos := by omega
  simp [peek, hlt, ht, ptrDiff64_self]

/-- Witness for C2: with `cap = 8, producerPos = 2, consumerPos = 2,
minFreeSpace = 0` (empty ring) and a request of `3` bytes, the
reservation succeeds at offset `2` with `minFreeSpace = 6 > 3`, and
`2 + 3 < 8`. -/
theorem reservation_strict_and_equal_means_empty_witness :
    3 < (6 : Nat) ∧ (2 : Nat) = 2 ∧ ((2 : Nat) + 3 < 8 ∨ (2 : Nat) + 3 < 2) ∧
      (∀ t : StagingBuffer, t.producerPos = t.consumerPos →
        (peek t).2.1 = 0) :=
  reservation_strict_and_equal_means_empty 2 3 true 2
    ⟨8, 2, 2, 8, 0, false⟩ ⟨8, 2, 2, 8, 6, false⟩ (by decide) (by decide)

/-- **C3.** `peek` wraps the consumer exactly when needed.  When the
producer has wrapped (`producerPos < consumerPos`) and no readable
bytes remain before `endOfRecordedSpace` (`consumerPos` has reached
`endOfRecordedSpace`), `peek` rolls `consumerPos` back to the start of
storage and returns the post-wrap run `[storage, producerPos)`.
Otherwise it returns the contiguous readable run at the current
`consumerPos`: `[consumerPos, endOfRecordedSpace)` in the wrapped
case, `[consumerPos, producerPos)` in the unwrapped case.  (The bounds
`< 2^64` state that the pointer differences fit a `uint64_t`.) -/
theorem peek_wraps_consumer (sb : StagingBuffer) :
    (sb.producerPos < sb.consumerPos →
      sb.consumerPos = sb.endOfRecordedSpace →
      sb.producerPos < 2 ^ 64 →
      peek sb = (0, sb.producerPos, { sb with consumerPos := 0 })) ∧
    (sb.producerPos < sb.consumerPos →
      sb.consumerPos < sb.endOfRecordedSpace →
      sb.endOfRecordedSpace - sb.consumerPos < 2 ^ 64 →
      peek sb = (sb.consumerPos, sb.endOfRecordedSpace - sb.consumerPos, sb)) ∧
    (sb.consumerPos ≤ sb.producerPos →
      sb.producerPos - sb.consumerPos < 2 ^ 64 →
      peek sb = (sb.consumerPos, sb.producerPos - sb.consumerPos, sb)) := by
  refine ⟨?_, ?_, ?_⟩
  · intro hpc heq hfit
    have h0 : ptrDiff64 sb.endOfRecordedSpace sb.consumerPos = 0 := by
      rw [← heq, ptrDiff64_self]
    have hP : ptrDiff64 sb.producerPos 0 = sb.producerPos := by
      simpa using ptrDiff64_of_le (Nat.zero_le _) (by omega)
    simp [peek, hpc, h0, hP]
  · intro hpc hlt hfit
    have hav : ptrDiff64 sb.endOfRecordedSpace sb.consumerPos =
        sb.endOfRecordedSpace - sb.consumerPos :=
      ptrDiff64_of_le (le_of_lt hlt) hfit
    simp [peek, hpc, hav, Nat.sub_pos_of_lt hlt]
  · intro hcp hfit
    have hlt : ¬ sb.producerPos < sb.consumerPos := by omega
    have hav : ptrDiff64 sb.producerPos sb.consumerPos =
        sb.producerPos - sb.consumerPos := ptrDiff64_of_le hcp hfit
    simp [peek, hlt, hav]

/-- When the cached `minFreeSpace` already exceeds the request, the
loop is not entered and the call returns `producerPos` with the state
unchanged. -/
lemma reserveSpaceInternalAux_fast (fuel : Nat) (sb : StagingBuffer)
    (n : Nat) (b : Bool) (hg : n < sb.minFreeSpace) :
    reserveSpaceInternalAux (fuel + 1) sb n b = some (some sb.producerPos, sb) := by
  rw [reserveSpaceInternalAux, if_neg (Nat.not_le.mpr hg)]

/-- **C10.** A failed non-blocking reservation has no consumer-visible
effect beyond the producer-side wrap it may have performed on the way.
Whenever `reserveSpaceInternal` returns the `nullptr` sentinel,
`consumerPos`, the capacity and `shouldDeallocate` are unchanged, and
either `producerPos` and `endOfRecordedSpace` are both unchanged (no
wrap happened) or the single wrap was performed: `endOfRecordedSpace`
now holds the old `producerPos` and `producerPos` points to the start
of storage.  Only the producer-private `minFreeSpace` cache changes
otherwise, so a failed reservation never moves the consumer and never
loses committed data. -/
theorem reserveSpaceInternal_fail_frame (fuel n : Nat)
    (sb sb' : StagingBuffer)
    (h : reserveSpaceInternalAux fuel sb n false = some (none, sb')) :
    sb'.consumerPos = sb.consumerPos ∧ sb'.cap = sb.cap ∧
      sb'.shouldDeallocate = sb.shouldDeallocate ∧
      ((sb'.producerPos = sb.producerPos ∧
          sb'.endOfRecordedSpace = sb.endOfRecordedSpace) ∨
        (sb'.producerPos = 0 ∧
          sb'.endOfRecordedSpace = sb.producerPos)) := by
  match fuel with
  | 0 => simp [reserveSpaceInternalAux] at h
  | fuel + 1 =>
    rw [reserveSpaceInternalAux] at h
    by_cases hg : sb.minFreeSpace ≤ n
    case neg => rw [if_neg hg] at h; simp at h
    case pos =>
      rw [if_pos hg] at h
      by_cases hcp : sb.consumerPos ≤ sb.producerPos
      · rw [if_pos hcp] at h
        by_cases htail : n < sb.cap - sb.producerPos
        · rw [if_pos htail] at h
          simp at h
        · rw [if_neg htail] at h
          by_cases hnb : (false = false) ∧ sb.consumerPos - 0 ≤ n
          · rw [if_pos hnb] at h
            obtain ⟨-, hsb⟩ : True ∧ _ = sb' := by simpa using h
            refine ⟨by simp [← hsb], by simp [← hsb], by simp [← hsb],
              Or.inr ⟨by simp [← hsb], by simp [← hsb]⟩⟩
          · rw [if_neg hnb] at h
            have hmfs : n < sb.consumerPos - 0 := by
              rcases Nat.lt_or_ge n (sb.consumerPos - 0) with hlt | hge
              · exact hlt
              · exact absurd ⟨rfl, by simpa using hge⟩ hnb
            match fuel with
            | 0 => simp [reserveSpaceInternalAux] at h
            | fuel + 1 =>
              rw [reserveSpaceInternalAux_fast fuel _ n false
                (by simpa using hmfs)] at h
              simp at h
      · rw [if_neg hcp] at h
        by_cases hnb : (false = false) ∧ sb.consumerPos - sb.producerPos ≤ n
        · rw [if_pos hnb] at h
          obtain ⟨-, hsb⟩ : True ∧ _ = sb' := by simpa using h
          exact ⟨by simp [← hsb], by simp [← hsb], by simp [← hsb],
            Or.inl ⟨by simp [← hsb], by simp [← hsb]⟩⟩
        · rw [if_neg hnb] at h
          have hmfs : n < sb.consumerPos - sb.producerPos := by
            rcases Nat.lt_or_ge n (sb.consumerPos - sb.producerPos) with hlt | hge
            · exact hlt
            · exact absurd ⟨rfl, by simpa using hge⟩ hnb
          match fuel with
          | 0 => simp [reserveSpaceInternalAux] at h
          | fuel + 1 =>
            rw [reserveSpaceInternalAux_fast fuel _ n false
              (by simpa using hmfs)] at h
            simp at h

/-- Witness for C10: with `cap = 8, producerPos = 6, consumerPos = 2,
minFreeSpace = 0` and a non-blocking request of `4` bytes, the tail
run `2` is insufficient, the producer wraps, the recomputed run `2` is
still insufficient, and the sentinel is returned: the consumer side is
untouched and the wrap is the only producer-side change. -/
theorem reserveSpaceInternal_fail_frame_witness :
    (2 : Nat) = 2 ∧ (8 : Nat) = 8 ∧ (false = false) ∧
      (((0 : Nat) = 6 ∧ (6 : Nat) = 8) ∨ ((0 : Nat) = 0 ∧ (6 : Nat) = 6)) :=
  reserveSpaceInternal_fail_frame 2 4
    ⟨8, 6, 2, 8, 0, false⟩ ⟨8, 0, 2, 6, 2, false⟩ (by decide)

/-- Abstract state of the drainer's idle/sync protocol
(`compressionThreadMain`, lines 372-390, and `sync`, lines 553-560).
`syncRequested` and `workAddedNotified` are the flags guarded by
`condMutex`; `scansDone` counts completed scans of the staging
buffers; `signals` counts `hintQueueEmptied.notify_one()` calls. -/
structure SyncSystem where
  syncRequested : Bool
  workAddedNotified : Bool
  scansDone : Nat
  signals : Nat
  deriving Repr, DecidableEq

/-- `FastLogger::sync` (lines 553-560): under `condMutex`, set
`syncRequested`, notify `workAdded`; the caller then waits on
`hintQueueEmptied`, i.e. it returns only once `signals` has grown. -/
def syncCall (s : SyncSystem) : SyncSystem :=
  { s with syncRequested := true, workAddedNotified := true }

/-- One iteration of `compressionThreadMain`'s outer loop, reduced to
its idle-branch decision (lines 372-390).  `producedOutput` records
whether the scan left `out ≠ compressingBuffer`.  If output was
produced, the iteration goes on to write it (no signal).  Otherwise,
if a sync was requested the flag is cleared and the loop continues
(no signal); only an idle pass with no pending sync signals
`hintQueueEmptied`. -/
def drainIter (producedOutput : Bool) (s : SyncSystem) : SyncSystem :=
  let s1 : SyncSystem := { s with scansDone := s.scansDone + 1 }
  if producedOutput then s1
  else if s1.syncRequested then { s1 with syncRequested := false }
  else { s1 with signals := s1.signals + 1 }

/-- A run of drainer iterations, given each scan's outcome. -/
def drainRun (l : List Bool) (s : SyncSystem) : SyncSystem :=
  l.foldl (fun t p => drainIter p t) s

lemma drainIter_signals_of_sync (p : Bool) (s : SyncSystem)
    (h : s.syncRequested = true) : (drainIter p s).signals = s.signals := by
  cases p <;> simp [drainIter, h]

lemma drainIter_scansDone (p : Bool) (s : SyncSystem) :
    (drainIter p s).scansDone = s.scansDone + 1 := by
  cases p <;> by_cases hr : s.syncRequested = true <;> simp [drainIter, hr]

/-- **C4.** The sync handshake.  `sync()` sets `syncRequested` and
notifies `workAdded`; a scan that produced no output while
`syncRequested` was set clears the flag and continues without
signalling; a signal on `hintQueueEmptied` is emitted only by a pass
that produced no output and had no pending sync request; hence, if the
sync caller is woken (`signals` grew during the run), the drainer
performed at least two full scans after `sync()` set the flag — at
least one more full scan after the one that observed `syncRequested`. -/
theorem sync_one_more_scan_before_signal (s : SyncSystem) (l : List Bool)
    (h : s.signals < (drainRun l (syncCall s)).signals) :
    (syncCall s).syncRequested = true ∧
      (syncCall s).workAddedNotified = true ∧
      (drainIter false (syncCall s)).syncRequested = false ∧
      (drainIter false (syncCall s)).signals = s.signals ∧
      (∀ (t : SyncSystem) (p : Bool), t.signals < (drainIter p t).signals →
        p = false ∧ t.syncRequested = false) ∧
      2 ≤ l.length ∧
      (drainRun l (syncCall s)).scansDone = s.scansDone + l.length := by
  have hlen : ∀ (l' : List Bool) (t : SyncSystem),
      (drainRun l' t).scansDone = t.scansDone + l'.length := by
    intro l'
    induction l' with
    | nil => intro t; simp [drainRun]
    | cons p rest ih =>
      intro t
      have : drainRun (p :: rest) t = drainRun rest (drainIter p t) := by
        simp [drainRun]
      rw [this, ih, drainIter_scansDone]
      simp
      omega
  refine ⟨rfl, rfl, by simp [drainIter, syncCall], by simp [drainIter, syncCall],
    ?_, ?_, hlen l (syncCall s)⟩
  · intro t p hs
    cases p
    · by_cases hr : t.syncRequested = true
      · rw [drainIter_signals_of_sync _ _ hr] at hs
        omega
      · exact ⟨rfl, by simpa using hr⟩
    · simp [drainIter] at hs
  · match l with
    | [] => simp [drainRun, syncCall] at h
    | [p] =>
      rw [show drainRun [p] (syncCall s) = drainIter p (syncCall s) from rfl,
        drainIter_signals_of_sync p (syncCall s) rfl] at h
      simp [syncCall] at h
    | p :: q :: rest => simp

/-- Witness for C4: starting idle with no pending sync, calling
`sync()` and then running two no-output scans wakes the caller: the
first scan consumes `syncRequested`, the second signals. -/
theorem sync_one_more_scan_before_signal_witness :
    (syncCall ⟨false, false, 0, 0⟩).syncRequested = true ∧
      (syncCall ⟨false, false, 0, 0⟩).workAddedNotified = true ∧
      (drainIter false (syncCall ⟨false, false, 0, 0⟩)).syncRequested = false ∧
      (drainIter false (syncCall ⟨false, false, 0, 0⟩)).signals = 0 ∧
      (∀ (t : SyncSystem) (p : Bool), t.signals < (drainIter p t).signals →
        p = false ∧ t.syncRequested = false) ∧
      2 ≤ [false, false].length ∧
      (drainRun [false, false] (syncCall ⟨false, false, 0, 0⟩)).scansDone =
        0 + [false, false].length :=
  sync_one_more_scan_before_signal ⟨false, false, 0, 0⟩ [false, false]
    (by decide)

/-! ### Direct-I/O padding (`compressionThreadMain`, lines 394-403) -/

/-- `bytesToWrite % 512` as the code computes it. -/
def bytesOver (bytesToWrite : Nat) : Nat := bytesToWrite % 512

/-- The value of `bytesToWrite` after the direct-I/O padding step. -/
def bytesToWriteAfterPad (bytesToWrite : Nat) : Nat :=
  if bytesOver bytesToWrite ≠ 0 then
    bytesToWrite + 512 - bytesOver bytesToWrite
  else bytesToWrite

/-- The amount added to `padBytesWritten` by the padding step. -/
def padBytesAdded (bytesToWrite : Nat) : Nat :=
  if bytesOver bytesToWrite ≠ 0 then 512 - bytesOver bytesToWrite else 0

/-- The number of tail bytes the code actually zeroes:
`memset(out, 0, bytesOver)` zeroes `bytesOver` bytes, not the
`512 - bytesOver` pad bytes that are appended to the write. -/
def zeroedTailBytes (bytesToWrite : Nat) : Nat :=
  if bytesOver bytesToWrite ≠ 0 then bytesOver bytesToWrite else 0

/-- **C5** (code bug).  At `bytesToWrite = 513` with `O_DIRECT`
enabled, the write length is padded to `1024` (a multiple of `512`)
and `padBytesWritten` grows by the `511` pad bytes, but the `memset`
zeroes only `bytesOver = 1` byte of the tail: `510` of the `511` pad
bytes that reach the log file are left uninitialized, contradicting
the specified zero-padding of the tail up to the block alignment. -/
theorem directIO_pad_memset_bug :
    bytesToWriteAfterPad 513 = 1024 ∧
      bytesToWriteAfterPad 513 % 512 = 0 ∧
      padBytesAdded 513 = 511 ∧
      bytesToWriteAfterPad 513 = 513 + padBytesAdded 513 ∧
      zeroedTailBytes 513 = 1 ∧
      zeroedTailBytes 513 ≠ padBytesAdded 513 := by decide

/-! ### The drainer's inner compression loop (lines 303-333) -/

/-- In-ring record header `BufferUtils::UncompressedLogEntry`, as far
as the drainer's space accounting uses it. -/
structure UncompressedLogEntry where
  fmtId : Nat
  timestamp : Nat
  entrySize : Nat
  argMetaBytes : Nat
  deriving Repr, DecidableEq

/-- The drainer's inner loop over the entries of one peek run
(lines 303-333), parameterized by the number of bytes the external
collaborators write: `metaOut re` for
`BufferUtils::compressMetadata (re, &out, ...)` and `fmtOut re` for
`compressFnArray[re->fmtId](re, out)`.  Returns the final output
cursor, the `outputBufferFull` flag, and a trace with, for each entry
processed, the cursor at which its space check ran and the cursor at
which its per-format compressor was invoked (after the metadata
compressor advanced `out`). -/
def compressEntries (metaOut fmtOut : UncompressedLogEntry → Nat)
    (endOfBuffer : Nat) :
    List UncompressedLogEntry → Nat →
      Nat × Bool × List (UncompressedLogEntry × Nat × Nat)
  | [], out => (out, false, [])
  | re :: rest, out =>
    if (re.entrySize + re.argMetaBytes : Int) >
        (endOfBuffer : Int) - (out : Int) then
      (out, true, [])
    else
      let outAfterMeta := out + metaOut re
      let outAfterFmt := outAfterMeta + fmtOut re
      let r := compressEntries metaOut fmtOut endOfBuffer rest outAfterFmt
      (r.1, r.2.1, (re, out, outAfterMeta) :: r.2.2)

/-- **C6** (counterexample).  The worst-case bound is checked at the
cursor *before* the metadata compressor runs, not at the cursor passed
to `compressFnArray`.  With a metadata compressor that writes one
byte, a scratch buffer with exactly `entrySize + argMetaBytes = 6`
bytes left passes the check, yet at the per-format invocation (cursor
`1`) only `6 - 1 = 5` bytes remain — fewer than
`entrySize + argMetaBytes`. -/
theorem compressFn_space_at_invocation_counterexample :
    (compressEntries (fun _ => 1) (fun _ => 0) 6
        [⟨0, 0, 4, 2⟩] 0).2.2 = [(⟨0, 0, 4, 2⟩, 0, 1)] ∧
      ¬ ((4 + 2 : Int) ≤ (6 : Int) - (1 : Int)) := by decide

/-- **C6** (amended).  For every entry the drainer processes, at the
cursor where its space check runs (before the metadata compressor),
at least `entrySize + argMetaBytes` bytes remain in the scratch
buffer — the worst-case no-compression bound — and the per-format
compressor is then invoked at that cursor advanced by exactly the
metadata compressor's output.  An entry that fails the check is not
processed: the loop stops with `outputBufferFull` set. -/
theorem compressFn_space_check (metaOut fmtOut : UncompressedLogEntry → Nat)
    (endOfBuffer : Nat) (l : List UncompressedLogEntry) (out0 : Nat)
    (re : UncompressedLogEntry) (checkPos fmtPos : Nat)
    (h : (re, checkPos, fmtPos) ∈
      (compressEntries metaOut fmtOut endOfBuffer l out0).2.2) :
    (re.entrySize + re.argMetaBytes : Int) ≤
        (endOfBuffer : Int) - (checkPos : Int) ∧
      fmtPos = checkPos + metaOut re := by
  induction l generalizing out0 with
  | nil => simp [compressEntries] at h
  | cons e rest ih =>
    rw [compressEntries] at h
    by_cases hfit : (e.entrySize + e.argMetaBytes : Int) >
        (endOfBuffer : Int) - (out0 : Int)
    · rw [if_pos hfit] at h
      simp at h
    · rw [if_neg hfit] at h
      simp only [List.mem_cons] at h
      rcases h with h | h
      · obtain ⟨he, hc, hf⟩ : re = e ∧ checkPos = out0 ∧
            fmtPos = out0 + metaOut e := by
          simpa [Prod.ext_iff] using h
        subst he hc hf
        exact ⟨le_of_not_lt hfit, rfl⟩
      · exact ih _ h

/-- Witness for the amended C6: a concrete run in which the single
entry (sizes `8 + 3`) is checked at cursor `0` of a `20`-byte scratch
buffer and its per-format compressor is invoked at cursor `1`. -/
theorem compressFn_space_check_witness :
    ((8 : Nat) + (3 : Nat) : Int) ≤ ((20 : Nat) : Int) - ((0 : Nat) : Int) ∧
      (1 : Nat) = 0 + 1 :=
  compressFn_space_check (fun _ => 1) (fun _ => 2) 20
    [⟨1, 5, 8, 3⟩] 0 ⟨1, 5, 8, 3⟩ 0 1 (by decide)

/-! ### Constructor error checks (`FastLogger::FastLogger`, lines 63-88) -/

/-- The constructor's check on the default log file:
`outputFd = open("/tmp/compressedLog", FILE_PARAMS); if (!outputFd) { ... exit(-1) }`.
`open(2)` returns `-1` on failure and a nonnegative descriptor on
success, so this predicate is the exact condition under which the
constructor prints its diagnostic and exits. -/
def constructorExitsOnOpen (openRet : Int) : Bool := openRet == 0

/-- The constructor's check on each scratch-buffer allocation:
`err = posix_memalign(...); if (err) { perror(...); exit(-1) }` —
`posix_memalign` returns `0` on success and an error number on
failure. -/
def constructorExitsOnAlloc (err : Int) : Bool := err != 0

/-- **C7** (code bug).  The allocation check is right (any nonzero
`posix_memalign` result, e.g. `ENOMEM = 12`, aborts), but a failing
`open` returns `-1`, and `if (!outputFd)` only fires on `0`: the
constructor does *not* abort on a failed open — it continues with the
invalid descriptor `-1` — contradicting the specified fatal handling
(the spec itself flags this `!fd` check as a defect). -/
theorem constructor_open_check_bug :
    constructorExitsOnOpen (-1) = false ∧
      constructorExitsOnOpen 0 = true ∧
      constructorExitsOnAlloc 12 = true ∧
      constructorExitsOnAlloc 0 = false := by decide

/-! ### `setLogFile_internal` (lines 487-523) -/

/-- The actions `setLogFile_internal` performs once its checks pass,
in source order. -/
inductive SetLogStep
  | syncStep
  | stopThread
  | swapFd
  | restartThread
  deriving Repr, DecidableEq

/-- Outcome of `setLogFile_internal`: one of its two `throw`s, or the
sequence of actions it runs through. -/
inductive SetLogFileResult
  | failNotAccessible
  | failCannotCreate
  | proceed (steps : List SetLogStep)
  deriving Repr, DecidableEq

/-- Control flow of `FastLogger::setLogFile_internal`
(lines 487-523).  `accessExists` is `access(filename, F_OK) == 0`,
`accessRW` is `access(filename, R_OK | W_OK) == 0`, and `openRet` the
return of `open(filename, FILE_PARAMS)`. -/
def setLogFile_internal (accessExists accessRW : Bool) (openRet : Int) :
    SetLogFileResult :=
  if accessExists ∧ ¬ accessRW then .failNotAccessible
  else if openRet == 0 then .failCannotCreate
  else .proceed [.syncStep, .stopThread, .swapFd, .restartThread]

/-- **C8** (code bug).  An existing file that cannot be read/written
does throw, and the success path runs sync, stop, swap, restart in the
specified order; but a path on which `open` fails (returns `-1`) does
*not* throw — `if (!newFd)` only fires on `0`, so the function
proceeds to swap in the invalid descriptor `-1` (the same defective
`!fd` check the spec flags). -/
theorem setLogFile_open_check_bug :
    setLogFile_internal true false 3 = .failNotAccessible ∧
      setLogFile_internal false true 0 = .failCannotCreate ∧
      setLogFile_internal false true (-1) =
        .proceed [.syncStep, .stopThread, .swapFd, .restartThread] ∧
      setLogFile_internal false true 3 =
        .proceed [.syncStep, .stopThread, .swapFd, .restartThread] := by
  decide

/-! ### Buffer deletion by the drainer (lines 338-356) -/

/-- `StagingBuffer::checkCanDelete` — Modelled from the spec: the
method's body lives in `FastLogger.h`, which is not part of the staged
sources; §4.1 of the spec defines it as "true iff `shouldDeallocate`
is set and the ring is empty". -/
def checkCanDelete (sb : StagingBuffer) : Bool :=
  sb.shouldDeallocate && (sb.producerPos == sb.consumerPos)

/-- What the drainer does with one staging buffer in its scan
(lines 296-353): compress when `peek` reported bytes, otherwise
destroy the buffer when `checkCanDelete()` holds, otherwise move on. -/
inductive BufferAction
  | compress
  | destroy
  | skip
  deriving Repr, DecidableEq

/-- The drainer's per-buffer decision (lines 296-353). -/
def drainerBufferAction (readableBytes : Nat) (canDelete : Bool) :
    BufferAction :=
  if readableBytes > 0 then .compress
  else if canDelete then .destroy
  else .skip

/-- The index bookkeeping after `threadBuffers.erase(begin + i)`
(lines 342-349): `size` is the registry size before the erase; the
result is `(new size, new i, new lastStagingBufferChecked)`. -/
def eraseAdjust (size i last : Nat) : Nat × Nat × Nat :=
  let size1 := size - 1
  if i = size1 then
    (size1, 0, if last = i then 0 else last)
  else
    (size1, i, last)

/-- **C9** (code bug).  A buffer is destroyed only on an empty peek
with `checkCanDelete()` true — that half of the claim holds — but the
index adjustment is incomplete: with `3` buffers and
`lastStagingBufferChecked = 2`, erasing the buffer at index `0`
leaves `lastStagingBufferChecked = 2` while only `2` buffers remain,
so it is no longer a valid index into the remaining buffers (it is
later used to start a scan at `threadBuffers[i]`). -/
theorem drainer_delete_adjust_bug :
    drainerBufferAction 0 true = .destroy ∧
      (∀ rb cd, drainerBufferAction rb cd = .destroy →
        rb = 0 ∧ cd = true) ∧
      (∀ sb : StagingBuffer, checkCanDelete sb = true →
        sb.shouldDeallocate = true ∧ sb.producerPos = sb.consumerPos) ∧
      eraseAdjust 3 0 2 = (2, 0, 2) ∧
      ¬ ((eraseAdjust 3 0 2).2.2 < (eraseAdjust 3 0 2).1) := by
  refine ⟨by decide, ?_, ?_, by decide, by decide⟩
  · intro rb cd h
    by_cases hrb : rb > 0
    · simp [drainerBufferAction, hrb] at h
    · cases cd
      · simp [drainerBufferAction, hrb] at h
      · exact ⟨by omega, rfl⟩
  · intro sb h
    simpa [checkCanDelete] using h

end FastLogger
